import Mathlib

/-
  Verification of the gaussian-mixture repository (1D Gaussian Mixture Model
  fitted by Expectation-Maximization).

  Shallow embedding conventions:
  * JS numbers are modelled as real numbers; JS arrays as Lean lists, with
    index accesses `a[i]` modelled as `List.getD i 0` (all accesses proved or
    hypothesised in range where the claims need it).
  * The external gaussian package's pdf is the standard normal density.
  * A JS value of negative infinity produced by the log-likelihood functions is
    modelled by `Option ℝ` with `none` standing for -Infinity.
  * Randomness (Math.random) is an injected sequence of draws, a function
    from the call index to the drawn value.
-/

open Classical

noncomputable section

namespace GaussianMixture

/-- JS Math.round: round half toward positive infinity. -/
def jsRound (x : ℝ) : ℤ := ⌊x + 1 / 2⌋

/-- Density at x of the normal distribution with the given mean and variance,
as exposed by the external gaussian package's pdf. -/
def gaussPdf (mean v x : ℝ) : ℝ :=
  Real.exp (-((x - mean) ^ 2) / (2 * v)) / Real.sqrt (2 * v * Real.pi)

/-- Options record of a GMM; each numeric field is optional (undefined
modelled as none). The variancePrior, variancePriorRelevance, separationPrior
and separationPriorRelevance fields of the JS options object. -/
structure GMMOptions where
  variancePrior : Option ℝ := none
  variancePriorRelevance : Option ℝ := none
  separationPrior : Option ℝ := none
  separationPriorRelevance : Option ℝ := none

/-- JS truthiness of an optional numeric field: undefined and 0 are falsy. -/
def truthy : Option ℝ → Prop
  | none => False
  | some v => v ≠ 0

@[simp] theorem truthy_none : truthy none ↔ False := Iff.rfl

@[simp] theorem truthy_some (v : ℝ) : truthy (some v) ↔ v ≠ 0 := Iff.rfl

/-- The mixture model state: function GMM(nComponents, weights, means, vars,
options) of src/index.js. -/
structure GMM where
  nComponents : ℕ
  weights : List ℝ
  means : List ℝ
  vars : List ℝ
  options : GMMOptions

/-- The gaussian of component k of the model, evaluated at x:
gaussians[k].pdf(x) for the array built by GMM.prototype._gaussians. -/
def GMM.pdfk (g : GMM) (k : ℕ) (x : ℝ) : ℝ :=
  gaussPdf (g.means.getD k 0) (g.vars.getD k 0) x

/-- GMM.prototype.membership (src/index.js lines 93-104): the vector of raw
per-component densities at x, normalized by its sum. -/
def GMM.membership (g : GMM) (x : ℝ) : List ℝ :=
  let raw := (List.range g.nComponents).map (fun k => g.pdfk k x)
  raw.map (fun a => a / raw.sum)

/-- GMM.prototype.memberships: one membership row per data point. -/
def GMM.memberships (g : GMM) (data : List ℝ) : List (List ℝ) :=
  data.map (fun x => g.membership x)

/-- The un-normalized total density at x: the sum the membership vector is
divided by. -/
def GMM.sumPdf (g : GMM) (x : ℝ) : ℝ :=
  ((List.range g.nComponents).map (fun k => g.pdfk k x)).sum

/-- The barycenter utility (src/utilities/barycenter.js and GMM._barycenter):
sum of value*weight over the array's indices, divided by the sum of weights. -/
def barycenter (arr ws : List ℝ) : ℝ :=
  (((List.range arr.length).map (fun i => arr.getD i 0 * ws.getD i 0)).sum) /
    (((List.range arr.length).map (fun i => ws.getD i 0)).sum)

/-- componentWeights[k] = memberships.reduce(function (a, b) \x7b return a + b[k]; \x7d, 0). -/
def componentWeight (m : List (List ℝ)) (k : ℕ) : ℝ :=
  m.foldl (fun a b => a + b.getD k 0) 0

/-- The epsilon constant of the variance update in the current M-step
(var EPSILON = 1e-7 in the Histogram-era source). -/
def EPSILON : ℝ := 1e-7

/-- The weight-update phase of the M-step: this.weights =
componentWeights.map(function (a) \x7b return a / n; \x7d). Note that in the source
cw.getD k 0 for k < nComponents is exactly componentWeight m k, so the
later phases read componentWeight m k directly. -/
def GMM.newWeights (g : GMM) (n : ℝ) (m : List (List ℝ)) : List ℝ :=
  ((List.range g.nComponents).map (fun k => componentWeight m k)).map (fun a => a / n)

/-- The raw mean-update phase of the M-step, before any separation prior:
means[k] = (sum over i of memberships[i][k] * data[i]) / componentWeights[k]. -/
def GMM.rawMeans (g : GMM) (data : List ℝ) (m : List (List ℝ)) : List ℝ :=
  (List.range g.nComponents).map (fun k =>
    (((List.range data.length).map
      (fun i => (m.getD i []).getD k 0 * data.getD i 0)).sum) / componentWeight m k)

/-- The separation-prior blending of the updated means (the
"If there is a separation prior" block of the M-step): active only when both
options.separationPrior and options.separationPriorRelevance are truthy. -/
def sepBlend (nC : ℕ) (opts : GMMOptions) (weights means : List ℝ) : List ℝ :=
  if truthy opts.separationPrior ∧ truthy opts.separationPriorRelevance then
    let sp := opts.separationPrior.getD 0
    let priorMeans := (List.range nC).map (fun a => (a : ℝ) * sp)
    let priorCenter := barycenter priorMeans weights
    let center := barycenter means weights
    (List.range nC).map (fun k =>
      let alpha := weights.getD k 0 /
        (weights.getD k 0 + opts.separationPriorRelevance.getD 0)
      center + alpha * (means.getD k 0 - center) +
        (1 - alpha) * (priorMeans.getD k 0 - priorCenter))
  else means

/-- The variance-update phase of the M-step: the accumulator starts at init
(0 in src/index.js's updateModel, EPSILON in the Histogram-era _updateModel,
the only difference between the two versions), sums the responsibility-
weighted squared deviations from the already-blended means, divides by the
component weight, and finally blends in the variance prior when both its
options are truthy. weights and means are the values updated by the earlier
phases, as in the source (the variance loop runs after both). -/
def GMM.newVars (g : GMM) (init : ℝ) (data : List ℝ) (m : List (List ℝ))
    (weights means : List ℝ) : List ℝ :=
  (List.range g.nComponents).map (fun k =>
    let muk := means.getD k 0
    let v0 := (init + ((List.range data.length).map
        (fun i => (m.getD i []).getD k 0 * (data.getD i 0 - muk) *
          (data.getD i 0 - muk))).sum) / componentWeight m k
    if truthy g.options.variancePrior ∧ truthy g.options.variancePriorRelevance then
      let alpha := weights.getD k 0 /
        (weights.getD k 0 + g.options.variancePriorRelevance.getD 0)
      alpha * v0 + (1 - alpha) * g.options.variancePrior.getD 0
    else v0)

/-- GMM.prototype.updateModel (src/index.js lines 112-159): one EM
maximization step. The returned model carries the updated weights, means and
vars; the variance accumulator starts at 0 in this version of the source. -/
def GMM.updateModel (g : GMM) (data : List ℝ) (mships : Option (List (List ℝ))) : GMM :=
  let m := mships.getD (g.memberships data)
  let weights := g.newWeights (data.length : ℝ) m
  let means := sepBlend g.nComponents g.options weights (g.rawMeans data m)
  let vars := g.newVars 0 data m weights means
  { g with weights := weights, means := means, vars := vars }

/-- GMM.prototype._updateModel of the Histogram-era source
(src/unnamed/part_003 lines 134-181): identical to GMM.updateModel except that
the variance accumulator starts at EPSILON instead of 0. -/
def GMM.updateModelE (g : GMM) (data : List ℝ) (mships : Option (List (List ℝ))) : GMM :=
  let m := mships.getD (g.memberships data)
  let weights := g.newWeights (data.length : ℝ) m
  let means := sepBlend g.nComponents g.options weights (g.rawMeans data m)
  let vars := g.newVars EPSILON data m weights means
  { g with weights := weights, means := means, vars := vars }

/-- The accumulation loop shared by the log-likelihood functions: fold over the
per-observation mixture densities, short-circuiting to -Infinity (none) as soon
as a density is exactly zero. -/
def logLikeAux : ℝ → List ℝ → Option ℝ
  | l, [] => some l
  | l, p :: rest => if p = 0 then none else logLikeAux (l + Real.log p) rest

/-- The inner sum of GMM.prototype.logLikelihood: the weighted mixture density
of the model at x. -/
def GMM.mixDensity (g : GMM) (x : ℝ) : ℝ :=
  ((List.range g.nComponents).map (fun k => g.weights.getD k 0 * g.pdfk k x)).sum

/-- GMM.prototype.logLikelihood (src/index.js lines 188-204): sum of logs of the
mixture density at each observation; -Infinity (none) if some density is 0. -/
def GMM.logLikelihood (g : GMM) (data : List ℝ) : Option ℝ :=
  logLikeAux 0 (data.map (fun x => g.mixDensity x))

/-- The inner sum of GMM.prototype._logLikelihoodMemberships: responsibility
values substituted for the recomputed densities. -/
def GMM.rowDensity (g : GMM) (row : List ℝ) : ℝ :=
  ((List.range g.nComponents).map (fun k => g.weights.getD k 0 * row.getD k 0)).sum

/-- GMM.prototype._logLikelihoodMemberships (src/index.js lines 166-181). -/
def GMM.logLikelihoodMemberships (g : GMM) (m : List (List ℝ)) : Option ℝ :=
  logLikeAux 0 (m.map (fun row => g.rowDensity row))

/-- The cumulative-weight scan of GMM.prototype.sample (src/index.js lines
60-67): while (r > weights[n] && n < nComponents) \x7b r -= weights[n]; n++; \x7d.
The list argument is the not-yet-visited tail of the weights array, n the
current index; reading weights[n] past the end of the array compares r with
undefined, which is falsy, ending the loop. -/
def sampleScan : List ℝ → ℕ → ℕ → ℝ → ℕ
  | [], _, n, _ => n
  | w :: ws, nComp, n, r =>
      if w < r ∧ n < nComp then sampleScan ws nComp (n + 1) (r - w) else n

/-- The component index drawn by one iteration of GMM.prototype.sample for the
uniform draw r. -/
def GMM.sampleIndex (g : GMM) (r : ℝ) : ℕ :=
  sampleScan g.weights g.nComponents 0 r

/-- The loop state of GMM.prototype.optimize: the model being mutated in
place, together with the memberships variable of the loop (undefined before
the first iteration). -/
structure EMState where
  g : GMM
  m : Option (List (List ℝ))

/-- One iteration body of the optimize loop (src/index.js lines 227-228):
this.updateModel(data, memberships); memberships = this.memberships(data). -/
def GMM.emStep (data : List ℝ) (s : EMState) : EMState :=
  let g' := s.g.updateModel data s.m
  { g := g', m := some (g'.memberships data) }

/-- temp = this._logLikelihoodMemberships(memberships), evaluated on the state
after an iteration body. -/
def emLL (s : EMState) : Option ℝ :=
  match s.m with
  | some m => s.g.logLikelihoodMemberships m
  | none => none

/-- The loop guard logLikelihoodDiff > logLikelihoodTol, where the diff is
Math.abs(previous - current) of two log-likelihood values that are either
finite or -Infinity (none). With both values -Infinity the JS subtraction
yields NaN and the comparison is false, so the loop stops; with exactly one
-Infinity the diff is Infinity and the loop continues. -/
def llContinue (tol : ℝ) : Option ℝ → Option ℝ → Prop
  | some a, some b => tol < |a - b|
  | none, none => False
  | _, _ => True

/-- The for loop of GMM.prototype.optimize, in fuel-passing form: fuel is the
number of remaining permitted iterations (maxIterations - i), prev the current
value of the logLikelihood variable (initially -Infinity, i.e. none). The
initial guard always passes because logLikelihoodDiff starts at Infinity,
which exceeds any real tolerance. Returns the number of iterations executed
(the returned i) together with the final state. -/
def emLoop {σ : Type*} (step : σ → σ) (ll : σ → Option ℝ) (tol : ℝ) :
    ℕ → σ → Option ℝ → ℕ × σ
  | 0, s, _ => (0, s)
  | fuel + 1, s, prev =>
      if llContinue tol prev (ll (step s)) then
        ((emLoop step ll tol fuel (step s) (ll (step s))).1 + 1,
          (emLoop step ll tol fuel (step s) (ll (step s))).2)
      else (1, step s)

/-- var MAX_ITERATIONS = 200 (src/index.js line 9). -/
def MAX_ITERATIONS : ℕ := 200

/-- var LOG_LIKELIHOOD_TOL = 1e-7 (src/index.js line 10). -/
def LOG_LIKELIHOOD_TOL : ℝ := 1e-7

/-- GMM.prototype.optimize (src/index.js lines 219-234), with explicit
maxIterations and tolerance arguments. Returns the iteration count i together
with the final mutated state. -/
def GMM.optimize (g : GMM) (data : List ℝ) (maxIterations : ℕ) (tol : ℝ) : ℕ × EMState :=
  emLoop (GMM.emStep data) emLL tol maxIterations ⟨g, none⟩ none

/-- GMM.prototype.optimize with both optional arguments undefined, so that the
defaults MAX_ITERATIONS and LOG_LIKELIHOOD_TOL apply. -/
def GMM.optimizeDefault (g : GMM) (data : List ℝ) : ℕ × EMState :=
  g.optimize data MAX_ITERATIONS LOG_LIKELIHOOD_TOL

/-- The log-likelihood trace of the optimize loop on a model and data: entry 0
is the initial -Infinity baseline of the logLikelihood variable, entry k (for
a positive k) the value computed by iteration k of the loop. -/
def GMM.llTrace (g : GMM) (data : List ℝ) : ℕ → Option ℝ
  | 0 => none
  | k + 1 => emLL ((GMM.emStep data)^[k + 1] ⟨g, none⟩)

/-- Array.prototype.reduce with Math.min and no initial value, as used on the
per-seed squared distances of the K-means++ initializer. The empty case is
unreachable (the seeds list is never empty). -/
def jsReduceMin : List ℝ → ℝ
  | [] => 0
  | a :: as => as.foldl min a

/-- The seed-selection scan of the K-means++ initializer: iterate over data
points paired with their distance weights; select the current point if its
normalized probability exceeds the remaining random mass, or deterministically
at the last index; otherwise subtract and continue. Division by a zero dsum
follows the JS expression (distances[j] / dsum) || 0, which coerces the NaN to
0 and is the real-field convention d / 0 = 0. -/
def pickScan : List (ℝ × ℝ) → ℝ → ℝ → ℝ
  | [], _, _ => 0
  | [(v, _)], _, _ => v
  | (v, d) :: rest, dsum, r =>
      if d / dsum > r then v else pickScan rest dsum (r - d / dsum)

/-- The seed loop of the K-means++ initializer (for m = 1; m < nComponents;
m++): fuel counts the remaining seeds, m the index of the Math.random call for
this seed, means the accumulated seeds. -/
def kmSeeds (data : List ℝ) (rnd : ℕ → ℝ) : ℕ → ℕ → List ℝ → List ℝ
  | 0, _, means => means
  | fuel + 1, m, means =>
      let dists := data.map (fun x =>
        jsReduceMin (means.map (fun mu => (mu - x) * (mu - x))))
      let dsum := dists.sum
      let c := pickScan (data.zip dists) dsum (rnd m)
      kmSeeds data rnd fuel (m + 1) (means ++ [c])

/-- Ascending numeric sort: means.sort(function (a, b) \x7b return a - b; \x7d). -/
def sortAsc (l : List ℝ) : List ℝ := l.insertionSort (· ≤ ·)

/-- GMM.prototype.initialize of the repository (also GMM.prototype._initialize
in the Histogram-era source, src/unnamed/part_003 lines 427-469): the
K-means++ seeding. Throws (none) when the data has fewer points than
nComponents; otherwise picks the first seed at a random index, the remaining
seeds by the distance-weighted scan, sorts the seeds ascending, assigns them
to the model's means and returns them. The rnd argument supplies the
successive Math.random() draws. -/
def GMM.kmppInit (g : GMM) (data : List ℝ) (rnd : ℕ → ℝ) : Option (List ℝ × GMM) :=
  if data.length < g.nComponents then none
  else
    let n := data.length
    let first := data.getD (jsRound (rnd 0 * ((n : ℝ) - 1))).toNat 0
    let means := kmSeeds data rnd (g.nComponents - 1) 1 [first]
    let sorted := sortAsc means
    some (sorted, { g with means := sorted })

/-- A histogram with implicit unit-width bins (bins = null): counts is the
insertion-ordered association list from bin key to count. The JS keys are the
stringified integers Math.round(x).toString(); they are modelled by the
integers themselves. -/
structure Histogram where
  counts : List (ℤ × ℕ)
  total : ℕ

/-- Histogram._classify with bins null: Math.round(x).toString(). -/
def Histogram.classifyUnit (x : ℝ) : ℤ := jsRound x

/-- Histogram.prototype.value with bins null: Number(key). -/
def Histogram.value (k : ℤ) : ℝ := (k : ℝ)

/-- Increment the count of key c in the association list, or append (c, 1) if
the key is absent: the counts update of Histogram.prototype.add. -/
def bumpCount (c : ℤ) : List (ℤ × ℕ) → List (ℤ × ℕ)
  | [] => [(c, 1)]
  | (k, v) :: rest =>
      if k = c then (k, v + 1) :: rest else (k, v) :: bumpCount c rest

/-- Histogram.prototype.add for the implicit-unit-bin mode: classification
never fails, so the count of the observation's key and the total both grow
by one. -/
def Histogram.add (h : Histogram) (x : ℝ) : Histogram :=
  { counts := bumpCount (Histogram.classifyUnit x) h.counts, total := h.total + 1 }

/-- Histogram.fromData(data) with no explicit bins: fold add over the data,
starting from the empty histogram. -/
def Histogram.fromData (data : List ℝ) : Histogram :=
  data.foldl (fun h x => h.add x) ⟨[], 0⟩

/-- Histogram.prototype.flatten: for each key in insertion order, emit the
key's representative value count-many times. -/
def Histogram.flatten (h : Histogram) : List ℝ :=
  h.counts.flatMap (fun p => List.replicate p.2 (Histogram.value p.1))

/-! Helper lemmas about list indexing and sums. -/

theorem getD_range_map {α : Type*} (f : ℕ → α) (d : α) {k n : ℕ} (hk : k < n) :
    ((List.range n).map f).getD k d = f k := by
  rw [List.getD_eq_getElem?_getD, List.getElem?_map, List.getElem?_range hk]
  rfl

theorem foldl_add_eq {β : Type*} (f : β → ℝ) :
    ∀ (l : List β) (c : ℝ), l.foldl (fun a b => a + f b) c = c + (l.map f).sum
  | [], c => by simp
  | b :: l, c => by
    rw [List.foldl_cons, foldl_add_eq f l (c + f b)]
    simp [add_assoc]

theorem componentWeight_eq_sum (m : List (List ℝ)) (k : ℕ) :
    componentWeight m k = (m.map (fun row => row.getD k 0)).sum := by
  rw [componentWeight, foldl_add_eq, zero_add]

theorem sum_map_add {α : Type*} (l : List α) (f g : α → ℝ) :
    (l.map (fun x => f x + g x)).sum = (l.map f).sum + (l.map g).sum := by
  induction l with
  | nil => simp
  | cons a l ih => simp [ih]; ring

theorem sum_map_sub {α : Type*} (l : List α) (f g : α → ℝ) :
    (l.map (fun x => f x - g x)).sum = (l.map f).sum - (l.map g).sum := by
  induction l with
  | nil => simp
  | cons a l ih => simp [ih]; ring

theorem sum_map_div {α : Type*} (l : List α) (f : α → ℝ) (c : ℝ) :
    (l.map (fun x => f x / c)).sum = (l.map f).sum / c := by
  induction l with
  | nil => simp
  | cons a l ih => simp [ih, add_div]

/-! Claim C1. The cumulative-weight scan of GMM.prototype.sample. -/

/-- C1: the claim asserts that when rounding error exhausts all components
before the scan resolves, the last component (index nComponents - 1) is used,
so that the indexing into the gaussians array never goes out of bounds. The
code's guard is off by one: with nComponents = 1, weights = [0.5] (a weight
vector whose sum fell short of 1) and the draw r = 0.7, the loop body still
runs at n = nComponents - 1, leaving n = nComponents = 1, which equals the
length of the weights (and gaussians) array, an out-of-bounds index
(gaussians[1] is undefined and the subsequent .ppf call throws). -/
theorem c1_sampleScan_out_of_range :
    GMM.sampleIndex ⟨1, [1 / 2], [0], [1], ⟨none, none, none, none⟩⟩ (7 / 10) = 1 ∧
      ([(1 : ℝ) / 2] : List ℝ).length = 1 := by
  constructor
  · show sampleScan [1 / 2] 1 0 (7 / 10) = 1
    rw [sampleScan, if_pos (by norm_num), sampleScan]
  · rfl

/-! Claim C5. The variance accumulator of the M-step. -/

/-- C5 counterexample: in GMM.prototype.updateModel of src/index.js the
variance accumulator starts at 0, not at a positive epsilon. With a single
component capturing the single data point 5 with full responsibility, the
component weight is 1 > 0 but the updated variance is exactly 0, not strictly
positive as the claim states. -/
theorem c5_updateModel_zero_variance :
    componentWeight [[(1 : ℝ)]] 0 = 1 ∧
      (GMM.updateModel ⟨1, [1], [0], [1], ⟨none, none, none, none⟩⟩ [5]
          (some [[1]])).vars = [0] := by
  constructor
  · simp [componentWeight]
  · simp [GMM.updateModel, GMM.newVars, GMM.newWeights, GMM.rawMeans, sepBlend,
      componentWeight, List.range_succ]

/-- C5 amended: in the Histogram-era M-step GMM.prototype._updateModel
(src/unnamed/part_003), the variance accumulator is initialized to
EPSILON = 1e-7, so when the variance prior is not active the updated variance
of component k equals (EPSILON + the responsibility-weighted sum of squared
deviations from the updated mean) divided by componentWeight k, and it is
strictly positive whenever componentWeight k is positive and the
responsibilities are non-negative. The older GMM.prototype.updateModel of
src/index.js initializes the accumulator to 0 instead and can return a zero
variance. -/
theorem c5_updateModelE_epsilon_variance (g : GMM) (data : List ℝ)
    (m : List (List ℝ)) (k : ℕ) (hk : k < g.nComponents)
    (hvp : ¬(truthy g.options.variancePrior ∧ truthy g.options.variancePriorRelevance))
    (hm : ∀ row ∈ m, ∀ v ∈ row, 0 ≤ v) :
    (g.updateModelE data (some m)).vars.getD k 0 =
      (EPSILON + ((List.range data.length).map
        (fun i => (m.getD i []).getD k 0 *
          (data.getD i 0 - (g.updateModelE data (some m)).means.getD k 0) *
          (data.getD i 0 - (g.updateModelE data (some m)).means.getD k 0))).sum) /
        componentWeight m k ∧
    (0 < componentWeight m k →
      0 < (g.updateModelE data (some m)).vars.getD k 0) := by
  have hentry : ∀ i, 0 ≤ (m.getD i []).getD k 0 := by
    intro i
    rcases lt_or_le i m.length with hi | hi
    · have hrow : m.getD i [] ∈ m := by
        rw [List.getD_eq_getElem _ _ hi]
        exact List.getElem_mem hi
      rcases lt_or_le k (m.getD i []).length with hk2 | hk2
      · rw [List.getD_eq_getElem _ _ hk2]
        exact hm _ hrow _ (List.getElem_mem hk2)
      · rw [List.getD_eq_default _ _ hk2]
    · rw [List.getD_eq_default _ _ hi]
      simp
  have hsum : 0 ≤ ((List.range data.length).map
      (fun i => (m.getD i []).getD k 0 *
        (data.getD i 0 - (g.updateModelE data (some m)).means.getD k 0) *
        (data.getD i 0 - (g.updateModelE data (some m)).means.getD k 0))).sum := by
    apply List.sum_nonneg
    intro x hx
    rcases List.mem_map.mp hx with ⟨i, _, rfl⟩
    have := hentry i
    nlinarith [sq_nonneg (data.getD i 0 - (g.updateModelE data (some m)).means.getD k 0)]
  have hvars : (g.updateModelE data (some m)).vars =
      g.newVars EPSILON data m (g.newWeights (data.length : ℝ) m)
        ((g.updateModelE data (some m)).means) := rfl
  have heq : (g.updateModelE data (some m)).vars.getD k 0 =
      (EPSILON + ((List.range data.length).map
        (fun i => (m.getD i []).getD k 0 *
          (data.getD i 0 - (g.updateModelE data (some m)).means.getD k 0) *
          (data.getD i 0 - (g.updateModelE data (some m)).means.getD k 0))).sum) /
        componentWeight m k := by
    rw [hvars, GMM.newVars, getD_range_map _ _ hk]
    simp only [if_neg hvp]
  refine ⟨heq, fun hcw => ?_⟩
  rw [heq]
  apply div_pos _ hcw
  have : (0 : ℝ) < EPSILON := by norm_num [EPSILON]
  linarith

/-- C5 witness: the epsilon-variance formula instantiated at a concrete
model, data set and membership matrix. -/
theorem c5_updateModelE_epsilon_variance_witness :
    (0 : ℕ) < (GMM.mk 1 [1] [0] [1] ⟨none, none, none, none⟩).nComponents ∧
    ¬(truthy (GMM.mk 1 [1] [0] [1] ⟨none, none, none, none⟩).options.variancePrior ∧
      truthy (GMM.mk 1 [1] [0] [1]
        ⟨none, none, none, none⟩).options.variancePriorRelevance) ∧
    (∀ row ∈ ([[(1 : ℝ)]] : List (List ℝ)), ∀ v ∈ row, 0 ≤ v) ∧
    (0 < componentWeight [[(1 : ℝ)]] 0 →
      0 < ((GMM.mk 1 [1] [0] [1] ⟨none, none, none, none⟩).updateModelE [5]
        (some [[1]])).vars.getD 0 0) := by
  have hm : ∀ row ∈ ([[(1 : ℝ)]] : List (List ℝ)), ∀ v ∈ row, 0 ≤ v := by
    intro row hrow v hv
    have h1 : row = [1] := by simpa using hrow
    subst h1
    have h2 : v = 1 := by simpa using hv
    rw [h2]
    norm_num
  refine ⟨by norm_num, by simp, hm, ?_⟩
  exact (c5_updateModelE_epsilon_variance (GMM.mk 1 [1] [0] [1]
    ⟨none, none, none, none⟩) [5] [[1]] 0 (by norm_num) (by simp) hm).2

/-! Claim C10. Priors whose target value is 0 are treated as absent. -/

/-- C10: a prior whose value is 0 is treated as absent, because each prior
branch of GMM.prototype.updateModel is guarded on the truthiness of the prior
value as well as of the relevance, and the number 0 is falsy in JS. Setting
variancePrior to 0 with a positive variancePriorRelevance (or separationPrior
to 0 with a positive separationPriorRelevance) yields exactly the same
weights, means and vars as passing no prior options at all. -/
theorem c10_zero_prior_is_absent (g : GMM) (data : List ℝ)
    (m : Option (List (List ℝ))) (r r' : ℝ) (hr : 0 < r) (hr' : 0 < r') :
    ((GMM.mk g.nComponents g.weights g.means g.vars
        ⟨some 0, some r, none, none⟩).updateModel data m).weights =
      ((GMM.mk g.nComponents g.weights g.means g.vars
        ⟨none, none, none, none⟩).updateModel data m).weights ∧
    ((GMM.mk g.nComponents g.weights g.means g.vars
        ⟨some 0, some r, none, none⟩).updateModel data m).means =
      ((GMM.mk g.nComponents g.weights g.means g.vars
        ⟨none, none, none, none⟩).updateModel data m).means ∧
    ((GMM.mk g.nComponents g.weights g.means g.vars
        ⟨some 0, some r, none, none⟩).updateModel data m).vars =
      ((GMM.mk g.nComponents g.weights g.means g.vars
        ⟨none, none, none, none⟩).updateModel data m).vars ∧
    ((GMM.mk g.nComponents g.weights g.means g.vars
        ⟨none, none, some 0, some r'⟩).updateModel data m).weights =
      ((GMM.mk g.nComponents g.weights g.means g.vars
        ⟨none, none, none, none⟩).updateModel data m).weights ∧
    ((GMM.mk g.nComponents g.weights g.means g.vars
        ⟨none, none, some 0, some r'⟩).updateModel data m).means =
      ((GMM.mk g.nComponents g.weights g.means g.vars
        ⟨none, none, none, none⟩).updateModel data m).means ∧
    ((GMM.mk g.nComponents g.weights g.means g.vars
        ⟨none, none, some 0, some r'⟩).updateModel data m).vars =
      ((GMM.mk g.nComponents g.weights g.means g.vars
        ⟨none, none, none, none⟩).updateModel data m).vars := by
  simp [GMM.updateModel, GMM.newWeights, GMM.rawMeans, GMM.newVars, sepBlend,
    GMM.memberships, GMM.membership, GMM.pdfk]

/-- C10 witness: the equalities at a concrete model, data set, membership
matrix and positive relevances. -/
theorem c10_zero_prior_is_absent_witness :
    (0 : ℝ) < 1 ∧
    ((GMM.mk 1 [1] [0] [1] ⟨some 0, some 1, none, none⟩).updateModel [2]
        (some [[1]])).weights =
      ((GMM.mk 1 [1] [0] [1] ⟨none, none, none, none⟩).updateModel [2]
        (some [[1]])).weights := by
  refine ⟨by norm_num, ?_⟩
  exact (c10_zero_prior_is_absent ⟨1, [1], [0], [1], ⟨none, none, none, none⟩⟩
    [2] (some [[1]]) 1 1 (by norm_num) (by norm_num)).1

/-! Claim C6. Weights sum to 1 after updateModel. -/

/-- Sum of the first nc entries of a membership row: the responsibility mass of
one observation over the nc components. -/
def rowSumTo (nc : ℕ) (row : List ℝ) : ℝ :=
  ((List.range nc).map (fun k => row.getD k 0)).sum

theorem componentWeight_cons (row : List ℝ) (m : List (List ℝ)) (k : ℕ) :
    componentWeight (row :: m) k = row.getD k 0 + componentWeight m k := by
  rw [componentWeight_eq_sum, componentWeight_eq_sum]
  simp

theorem sum_componentWeights (nc : ℕ) (m : List (List ℝ)) :
    ((List.range nc).map (fun k => componentWeight m k)).sum =
      (m.map (fun row => rowSumTo nc row)).sum := by
  induction m with
  | nil =>
      simp only [List.map_nil, List.sum_nil]
      have : ∀ k, componentWeight ([] : List (List ℝ)) k = 0 := fun _ => rfl
      simp [this]
  | cons row m ih =>
      simp only [componentWeight_cons]
      rw [sum_map_add, ih]
      simp [rowSumTo]

/-- C6: after an updateModel call whose membership matrix has one row per
observation, each row summing to 1 over the nComponents columns, the
componentWeights sum over k to the number of observations n, the new weights
are componentWeight k / n, and the weights array sums to exactly 1. -/
theorem c6_weights_sum_to_one (g : GMM) (data : List ℝ) (m : List (List ℝ))
    (hlen : m.length = data.length)
    (hrow : ∀ row ∈ m, rowSumTo g.nComponents row = 1)
    (hne : data ≠ []) :
    ((List.range g.nComponents).map (fun k => componentWeight m k)).sum =
        (data.length : ℝ) ∧
    (g.updateModel data (some m)).weights =
      (List.range g.nComponents).map
        (fun k => componentWeight m k / (data.length : ℝ)) ∧
    (g.updateModel data (some m)).weights.sum = 1 := by
  have hn : (data.length : ℝ) ≠ 0 := by
    exact_mod_cast fun h => hne (List.length_eq_zero.mp h)
  have hcw : ((List.range g.nComponents).map (fun k => componentWeight m k)).sum =
      (data.length : ℝ) := by
    rw [sum_componentWeights]
    rw [List.map_congr_left (fun row hr => hrow row hr)]
    simp [hlen]
  have hw : (g.updateModel data (some m)).weights =
      (List.range g.nComponents).map
        (fun k => componentWeight m k / (data.length : ℝ)) := by
    show g.newWeights (data.length : ℝ) m = _
    rw [GMM.newWeights, List.map_map]
    rfl
  refine ⟨hcw, hw, ?_⟩
  rw [hw, sum_map_div, hcw, div_self hn]

/-- C6 witness: the weight-sum invariant at a concrete model, data set and
membership matrix. -/
theorem c6_weights_sum_to_one_witness :
    ([[(1 : ℝ)], [1]] : List (List ℝ)).length = ([2, 3] : List ℝ).length ∧
    (∀ row ∈ ([[(1 : ℝ)], [1]] : List (List ℝ)), rowSumTo 1 row = 1) ∧
    ([2, 3] : List ℝ) ≠ [] ∧
    ((GMM.mk 1 [1] [0] [1] ⟨none, none, none, none⟩).updateModel [2, 3]
      (some [[1], [1]])).weights.sum = 1 := by
  have hrow : ∀ row ∈ ([[(1 : ℝ)], [1]] : List (List ℝ)), rowSumTo 1 row = 1 := by
    intro row hr
    have : row = [1] := by simpa using hr
    rw [this]
    simp [rowSumTo, List.range_succ]
  refine ⟨rfl, hrow, by simp, ?_⟩
  exact (c6_weights_sum_to_one ⟨1, [1], [0], [1], ⟨none, none, none, none⟩⟩
    [2, 3] [[1], [1]] rfl hrow (by simp)).2.2

/-! Claim C8. Histogram round-trip. -/

theorem flatten_bumpCount (c : ℤ) (l : List (ℤ × ℕ)) :
    ((bumpCount c l).flatMap (fun p => List.replicate p.2 (Histogram.value p.1))).Perm
      ((c : ℝ) :: l.flatMap (fun p => List.replicate p.2 (Histogram.value p.1))) := by
  induction l with
  | nil => simp [bumpCount, Histogram.value]
  | cons p l ih =>
      obtain ⟨k, v⟩ := p
      by_cases hkc : k = c
      · subst hkc
        simp [bumpCount, List.replicate_succ, Histogram.value]
      · rw [bumpCount, if_neg hkc]
        simp only [List.flatMap_cons]
        exact (ih.append_left _).trans List.perm_middle

theorem flatten_foldl_add (data : List ℝ) :
    ∀ h : Histogram, ((data.foldl (fun h x => h.add x) h).flatten).Perm
      (h.flatten ++ data.map (fun x => ((jsRound x : ℤ) : ℝ))) := by
  induction data with
  | nil => intro h; simp
  | cons x xs ih =>
      intro h
      rw [List.foldl_cons]
      refine (ih (h.add x)).trans ?_
      have hb : (h.add x).flatten.Perm (((jsRound x : ℤ) : ℝ) :: h.flatten) :=
        flatten_bumpCount (jsRound x) h.counts
      refine ((hb.append_right _).trans ?_)
      simp only [List.cons_append, List.map_cons]
      exact (List.perm_middle).symm

/-- C8: building a histogram from raw values with implicit unit-width bins and
flattening it back yields a multiset equal to the multiset of the values each
rounded to its bin representative (Math.round of the value); in particular the
flattened array has the same length as the original. -/
theorem c8_histogram_round_trip (values : List ℝ) :
    ((Histogram.fromData values).flatten).Perm
      (values.map (fun x => ((jsRound x : ℤ) : ℝ))) ∧
    (Histogram.fromData values).flatten.length = values.length := by
  have h := flatten_foldl_add values ⟨[], 0⟩
  have hempty : (Histogram.mk [] 0).flatten = [] := rfl
  rw [hempty, List.nil_append] at h
  constructor
  · exact h
  · have hl := h.length_eq
    rw [List.length_map] at hl
    exact hl

/-! Claim C9. The initializer mutates only means and returns sorted seeds. -/

/-- C9: on any data accepted by the K-means++ initializer (at least
nComponents points), the initializer succeeds, returns the new means sorted
ascending, assigns exactly that list to the model's means field, and leaves
weights, vars, nComponents and options untouched. -/
theorem c9_kmpp_frame_and_sorted (g : GMM) (data : List ℝ) (rnd : ℕ → ℝ)
    (h : g.nComponents ≤ data.length) :
    ∃ ms g', g.kmppInit data rnd = some (ms, g') ∧
      g'.weights = g.weights ∧ g'.vars = g.vars ∧
      g'.nComponents = g.nComponents ∧ g'.options = g.options ∧
      g'.means = ms ∧ List.Sorted (· ≤ ·) ms := by
  rw [GMM.kmppInit, if_neg (not_lt.mpr h)]
  exact ⟨_, _, rfl, rfl, rfl, rfl, rfl, rfl, List.sorted_insertionSort _ _⟩

/-- C9 witness: the frame property at a concrete model, data set and random
sequence. -/
theorem c9_kmpp_frame_and_sorted_witness :
    (GMM.mk 1 [1] [0] [1] ⟨none, none, none, none⟩).nComponents ≤
        ([3] : List ℝ).length ∧
    ∃ ms g', (GMM.mk 1 [1] [0] [1] ⟨none, none, none, none⟩).kmppInit [3]
        (fun _ => 0) = some (ms, g') ∧
      g'.weights = [1] ∧ g'.vars = [1] ∧ g'.nComponents = 1 ∧
      g'.options = ⟨none, none, none, none⟩ ∧
      g'.means = ms ∧ List.Sorted (· ≤ ·) ms :=
  ⟨by norm_num,
    c9_kmpp_frame_and_sorted ⟨1, [1], [0], [1], ⟨none, none, none, none⟩⟩ [3]
      (fun _ => 0) (by norm_num)⟩

/-! Claim C2. When the initializer rejects its input. -/

/-- C2 counterexample: the initializer only checks the total number of points,
not the number of distinct values. On the dataset [1, 1, 1, 1], which has 4
points but a single distinct value, a model with nComponents = 3 does not
fail: the K-means++ seeding succeeds and returns the degenerate seed list
[1, 1, 1] (exactly what the repository's own test asserts), instead of
raising InsufficientData as the claim states. -/
theorem c2_kmpp_accepts_indistinct :
    (∀ x ∈ ([1, 1, 1, 1] : List ℝ), x = 1) ∧
    3 ≤ ([1, 1, 1, 1] : List ℝ).length ∧
    GMM.kmppInit (GMM.mk 3 [1 / 3, 1 / 3, 1 / 3] [0, 1, 2] [1, 1, 1]
        ⟨none, none, none, none⟩) [1, 1, 1, 1] (fun _ => 0) =
      some ([1, 1, 1], GMM.mk 3 [1 / 3, 1 / 3, 1 / 3] [1, 1, 1] [1, 1, 1]
        ⟨none, none, none, none⟩) := by
  refine ⟨by intro x hx; simpa using hx, by norm_num, ?_⟩
  rw [GMM.kmppInit, if_neg (by norm_num)]
  norm_num [kmSeeds, jsReduceMin, pickScan, jsRound, sortAsc,
    List.insertionSort, List.orderedInsert]

/-- C2 amended: the initializer fails (throws the insufficient-data error)
exactly when the total number of observations is smaller than nComponents;
datasets with enough total points but fewer distinct values are accepted and
produce duplicated seeds. -/
theorem c2_kmpp_rejects_iff_too_short (g : GMM) (data : List ℝ) (rnd : ℕ → ℝ) :
    g.kmppInit data rnd = none ↔ data.length < g.nComponents := by
  rw [GMM.kmppInit]
  split <;> simp_all

/-! Claim C7. The optimize loop: iteration cap, stop condition, return value. -/

/-- The log-likelihood value held by the loop variable before each guard
check, for a generic loop body: entry 0 is the initial prev argument, entry
k (positive) the value computed by iteration k. -/
def prevT {σ : Type*} (step : σ → σ) (ll : σ → Option ℝ) (s : σ) (prev : Option ℝ) :
    ℕ → Option ℝ
  | 0 => prev
  | k + 1 => ll (step^[k + 1] s)

theorem prevT_shift {σ : Type*} (step : σ → σ) (ll : σ → Option ℝ) (s : σ)
    (prev : Option ℝ) (j : ℕ) :
    prevT step ll (step s) (ll (step s)) j = prevT step ll s prev (j + 1) := by
  cases j with
  | zero =>
      show ll (step s) = ll (step^[1] s)
      rw [Function.iterate_one]
  | succ k =>
      show ll (step^[k + 1] (step s)) = ll (step^[k + 2] s)
      rw [← Function.iterate_succ_apply]

theorem emLoop_spec {σ : Type*} (step : σ → σ) (ll : σ → Option ℝ) (tol : ℝ) :
    ∀ (fuel : ℕ) (s : σ) (prev : Option ℝ),
      (emLoop step ll tol fuel s prev).1 ≤ fuel ∧
      (emLoop step ll tol fuel s prev).2 =
        step^[(emLoop step ll tol fuel s prev).1] s ∧
      (0 < fuel → 0 < (emLoop step ll tol fuel s prev).1) ∧
      (∀ j, j + 2 ≤ (emLoop step ll tol fuel s prev).1 →
        llContinue tol (prevT step ll s prev j) (prevT step ll s prev (j + 1))) ∧
      (∀ j, (emLoop step ll tol fuel s prev).1 = j + 1 → j + 1 < fuel →
        ¬ llContinue tol (prevT step ll s prev j) (prevT step ll s prev (j + 1)))
  | 0, s, prev => by
      refine ⟨le_refl _, rfl, by simp [emLoop], ?_, ?_⟩
      · intro j hj
        simp [emLoop] at hj
      · intro j hj hlt
        omega
  | fuel + 1, s, prev => by
      obtain ⟨ih1, ih2, ih3, ih4, ih5⟩ :=
        emLoop_spec step ll tol fuel (step s) (ll (step s))
      rw [emLoop]
      by_cases hc : llContinue tol prev (ll (step s))
      · rw [if_pos hc]
        refine ⟨by omega, ?_, by omega, ?_, ?_⟩
        · show (emLoop step ll tol fuel (step s) (ll (step s))).2 = _
          rw [ih2, ← Function.iterate_succ_apply]
        · intro j hj
          cases j with
          | zero =>
              show llContinue tol prev (prevT step ll s prev 1)
              show llContinue tol prev (ll (step^[1] s))
              rw [Function.iterate_one]
              exact hc
          | succ j =>
              have hj' : j + 2 ≤ (emLoop step ll tol fuel (step s) (ll (step s))).1 := by
                omega
              have := ih4 j hj'
              rwa [prevT_shift, prevT_shift] at this
        · intro j hj hlt
          have hn : (emLoop step ll tol fuel (step s) (ll (step s))).1 = j := by omega
          have hcnt := ih3 (by omega)
          have hjpos : 0 < j := by omega
          obtain ⟨j', rfl⟩ : ∃ j', j = j' + 1 := ⟨j - 1, by omega⟩
          have := ih5 j' hn (by omega)
          rwa [prevT_shift, prevT_shift] at this
      · rw [if_neg hc]
        refine ⟨by omega, ?_, by omega, ?_, ?_⟩
        · show step s = step^[1] s
          rw [Function.iterate_one]
        · intro j hj
          omega
        · intro j hj hlt
          have : j = 0 := by omega
          subst this
          show ¬ llContinue tol prev (ll (step^[1] s))
          rw [Function.iterate_one]
          exact hc

/-- C7: for every model, data array, iteration cap and tolerance, the optimize
loop (i) executes at most maxIterations EM steps and returns exactly the
number executed (the final state is the iteration-count-fold of the loop body
over the initial state), (ii) runs its first iteration whenever the cap is
positive (the initial log-likelihood baseline is -Infinity and the initial
diff Infinity), (iii) continued past every iteration before the last executed
one only because the guard held there, and (iv) if it stopped before reaching
the cap, the guard failed at the last executed iteration, i.e. the absolute
log-likelihood change was at most the tolerance (llContinue captures
Math.abs(previous - current) > tol, with the JS conventions for -Infinity).
The default cap is MAX_ITERATIONS = 200 and the default tolerance
LOG_LIKELIHOOD_TOL = 1e-7. -/
theorem c7_optimize_loop (g : GMM) (data : List ℝ) (maxIter : ℕ) (tol : ℝ) :
    (g.optimize data maxIter tol).1 ≤ maxIter ∧
    (g.optimize data maxIter tol).2 =
      (GMM.emStep data)^[(g.optimize data maxIter tol).1] ⟨g, none⟩ ∧
    (0 < maxIter → 0 < (g.optimize data maxIter tol).1) ∧
    (∀ j, j + 2 ≤ (g.optimize data maxIter tol).1 →
      llContinue tol (g.llTrace data j) (g.llTrace data (j + 1))) ∧
    (∀ j, (g.optimize data maxIter tol).1 = j + 1 → j + 1 < maxIter →
      ¬ llContinue tol (g.llTrace data j) (g.llTrace data (j + 1))) ∧
    MAX_ITERATIONS = 200 ∧ LOG_LIKELIHOOD_TOL = 1 / 10 ^ 7 := by
  have htr : ∀ k, g.llTrace data k =
      prevT (GMM.emStep data) emLL (⟨g, none⟩ : EMState) none k := by
    intro k
    cases k <;> rfl
  obtain ⟨h1, h2, h3, h4, h5⟩ :=
    emLoop_spec (GMM.emStep data) emLL tol maxIter (⟨g, none⟩ : EMState) none
  refine ⟨h1, h2, h3, ?_, ?_, rfl, by norm_num [LOG_LIKELIHOOD_TOL]⟩
  · intro j hj
    rw [htr j, htr (j + 1)]
    exact h4 j hj
  · intro j hj hlt
    rw [htr j, htr (j + 1)]
    exact h5 j hj hlt

/-- C7 witness: the loop characterization instantiated at a concrete model,
data array, cap and tolerance. -/
theorem c7_optimize_loop_witness :
    ((GMM.mk 1 [1] [0] [1] ⟨none, none, none, none⟩).optimize [2] 1 0).1 ≤ 1 ∧
    ((GMM.mk 1 [1] [0] [1] ⟨none, none, none, none⟩).optimize [2] 1 0).2 =
      (GMM.emStep [2])^[((GMM.mk 1 [1] [0] [1]
        ⟨none, none, none, none⟩).optimize [2] 1 0).1] ⟨GMM.mk 1 [1] [0] [1]
        ⟨none, none, none, none⟩, none⟩ ∧
    (0 < 1 → 0 < ((GMM.mk 1 [1] [0] [1]
      ⟨none, none, none, none⟩).optimize [2] 1 0).1) ∧
    (∀ j, j + 2 ≤ ((GMM.mk 1 [1] [0] [1]
        ⟨none, none, none, none⟩).optimize [2] 1 0).1 →
      llContinue 0 ((GMM.mk 1 [1] [0] [1] ⟨none, none, none, none⟩).llTrace [2] j)
        ((GMM.mk 1 [1] [0] [1] ⟨none, none, none, none⟩).llTrace [2] (j + 1))) ∧
    (∀ j, ((GMM.mk 1 [1] [0] [1]
        ⟨none, none, none, none⟩).optimize [2] 1 0).1 = j + 1 → j + 1 < 1 →
      ¬ llContinue 0 ((GMM.mk 1 [1] [0] [1]
          ⟨none, none, none, none⟩).llTrace [2] j)
        ((GMM.mk 1 [1] [0] [1] ⟨none, none, none, none⟩).llTrace [2] (j + 1))) ∧
    MAX_ITERATIONS = 200 ∧ LOG_LIKELIHOOD_TOL = 1 / 10 ^ 7 :=
  c7_optimize_loop (GMM.mk 1 [1] [0] [1] ⟨none, none, none, none⟩) [2] 1 0

/-! Claims C3 and C4: density lemmas and the membership/log-likelihood facts. -/

theorem gaussPdf_pos (mean v x : ℝ) (hv : 0 < v) : 0 < gaussPdf mean v x := by
  apply div_pos (Real.exp_pos _)
  apply Real.sqrt_pos.mpr
  have hpi := Real.pi_pos
  nlinarith

theorem membership_getD (g : GMM) (x : ℝ) {k : ℕ} (hk : k < g.nComponents) :
    (g.membership x).getD k 0 = g.pdfk k x / g.sumPdf x := by
  simp only [GMM.membership]
  rw [List.map_map, getD_range_map _ _ hk]
  rfl

theorem rowDensity_membership (g : GMM) (x : ℝ) :
    g.rowDensity (g.membership x) = g.mixDensity x / g.sumPdf x := by
  rw [GMM.rowDensity, GMM.mixDensity, ← sum_map_div]
  apply congrArg List.sum
  apply List.map_congr_left
  intro k hk
  rw [membership_getD g x (List.mem_range.mp hk), mul_div_assoc]

theorem logLikeAux_eq_sum : ∀ (ps : List ℝ), (∀ p ∈ ps, p ≠ 0) → ∀ l : ℝ,
    logLikeAux l ps = some (l + (ps.map Real.log).sum)
  | [], _, l => by simp [logLikeAux]
  | p :: ps, h, l => by
      rw [logLikeAux, if_neg (h p (List.mem_cons_self p ps)),
        logLikeAux_eq_sum ps (fun q hq => h q (List.mem_cons_of_mem p hq))
          (l + Real.log p)]
      simp [add_assoc]

/-- C3 counterexample: a concrete one-component model with weight 1, mean 0
and variance 1 scored on the single observation 0. The mixture density at the
observation is nonzero, yet logLikelihood (log of the density, a negative
number since the density is 1 / sqrt(2 pi) < 1) differs from the
memberships-based variant, which substitutes the responsibility value 1 for
the density and returns log 1 = 0: the two computations do not agree even
though the claim's hypothesis holds. -/
theorem c3_loglik_variants_disagree :
    (GMM.mk 1 [1] [0] [1] ⟨none, none, none, none⟩).mixDensity 0 ≠ 0 ∧
    (GMM.mk 1 [1] [0] [1] ⟨none, none, none, none⟩).logLikelihood [0] ≠
      (GMM.mk 1 [1] [0] [1] ⟨none, none, none, none⟩).logLikelihoodMemberships
        ((GMM.mk 1 [1] [0] [1] ⟨none, none, none, none⟩).memberships [0]) := by
  set g1 : GMM := GMM.mk 1 [1] [0] [1] ⟨none, none, none, none⟩ with hg1
  have hpdf : g1.pdfk 0 0 = gaussPdf 0 1 0 := by
    simp [hg1, GMM.pdfk]
  have hpdfpos : 0 < g1.pdfk 0 0 := by
    rw [hpdf]
    exact gaussPdf_pos 0 1 0 one_pos
  have hS : g1.sumPdf 0 = g1.pdfk 0 0 := by
    simp [GMM.sumPdf, List.range_succ]
  have hmix : g1.mixDensity 0 = g1.pdfk 0 0 := by
    simp [GMM.mixDensity, List.range_succ, hg1]
  have hmixne : g1.mixDensity 0 ≠ 0 := by
    rw [hmix]
    exact ne_of_gt hpdfpos
  refine ⟨hmixne, ?_⟩
  have hLL : g1.logLikelihood [0] = some (Real.log (g1.pdfk 0 0)) := by
    rw [GMM.logLikelihood]
    simp only [List.map_cons, List.map_nil]
    rw [logLikeAux, if_neg hmixne, logLikeAux, hmix, zero_add]
  have hrd : g1.rowDensity (g1.membership 0) = 1 := by
    rw [rowDensity_membership, hmix, hS, div_self (ne_of_gt hpdfpos)]
  have hLLm : g1.logLikelihoodMemberships (g1.memberships [0]) = some 0 := by
    rw [GMM.logLikelihoodMemberships, GMM.memberships]
    simp only [List.map_cons, List.map_nil]
    rw [hrd, logLikeAux, if_neg one_ne_zero, logLikeAux, Real.log_one, zero_add]
  rw [hLL, hLLm]
  intro hcontra
  have hlog : Real.log (g1.pdfk 0 0) = 0 := Option.some.inj hcontra
  have hlt : g1.pdfk 0 0 < 1 := by
    rw [hpdf, gaussPdf]
    have h1 : (1 : ℝ) < Real.sqrt (2 * 1 * Real.pi) := by
      rw [show (2 : ℝ) * 1 * Real.pi = 2 * Real.pi by ring]
      have := Real.pi_gt_three
      calc (1 : ℝ) = Real.sqrt 1 := (Real.sqrt_one).symm
        _ < Real.sqrt (2 * Real.pi) := Real.sqrt_lt_sqrt (by norm_num) (by nlinarith)
    have : Real.exp (-(0 - 0) ^ 2 / (2 * 1)) = 1 := by
      norm_num
    rw [this]
    rw [div_lt_one (by positivity)]
    exact h1
  have := Real.log_neg hpdfpos hlt
  linarith

/-- C3 amended: the memberships-based log-likelihood is the data
log-likelihood minus the sum of the logs of the un-normalized total densities
(the normalizers of the membership rows): the two computations agree only when
that correction term vanishes, not in general. For every model and data array
with nonzero total density and nonzero mixture density at each observation,
logLikelihood(data) is the sum of log mixture densities, while the
memberships-based variant returns that sum minus the sum of log sumPdf. -/
theorem c3_loglik_memberships_formula (g : GMM) (data : List ℝ)
    (h : ∀ x ∈ data, g.sumPdf x ≠ 0 ∧ g.mixDensity x ≠ 0) :
    g.logLikelihood data =
      some ((data.map (fun x => Real.log (g.mixDensity x))).sum) ∧
    g.logLikelihoodMemberships (g.memberships data) =
      some ((data.map (fun x => Real.log (g.mixDensity x))).sum -
        (data.map (fun x => Real.log (g.sumPdf x))).sum) := by
  constructor
  · have hne1 : ∀ p ∈ data.map (fun x => g.mixDensity x), p ≠ 0 := by
      intro p hp
      rcases List.mem_map.mp hp with ⟨x, hx, rfl⟩
      exact (h x hx).2
    rw [GMM.logLikelihood, logLikeAux_eq_sum _ hne1 0, zero_add, List.map_map]
    rfl
  · have hlist : (g.memberships data).map (fun row => g.rowDensity row) =
        data.map (fun x => g.mixDensity x / g.sumPdf x) := by
      rw [GMM.memberships, List.map_map]
      exact List.map_congr_left (fun x _ => rowDensity_membership g x)
    have hne2 : ∀ p ∈ data.map (fun x => g.mixDensity x / g.sumPdf x), p ≠ 0 := by
      intro p hp
      rcases List.mem_map.mp hp with ⟨x, hx, rfl⟩
      exact div_ne_zero (h x hx).2 (h x hx).1
    rw [GMM.logLikelihoodMemberships, hlist, logLikeAux_eq_sum _ hne2 0, zero_add,
      List.map_map]
    congr 1
    have hpt : ∀ x ∈ data, (Real.log ∘ fun x => g.mixDensity x / g.sumPdf x) x =
        Real.log (g.mixDensity x) - Real.log (g.sumPdf x) := by
      intro x hx
      show Real.log (g.mixDensity x / g.sumPdf x) = _
      exact Real.log_div (h x hx).2 (h x hx).1
    rw [List.map_congr_left hpt, sum_map_sub]

/-- C3 witness: the two closed-form values at the concrete one-component
model and the observation 0. -/
theorem c3_loglik_memberships_formula_witness :
    (∀ x ∈ ([0] : List ℝ),
      (GMM.mk 1 [1] [0] [1] ⟨none, none, none, none⟩).sumPdf x ≠ 0 ∧
      (GMM.mk 1 [1] [0] [1] ⟨none, none, none, none⟩).mixDensity x ≠ 0) ∧
    ((GMM.mk 1 [1] [0] [1] ⟨none, none, none, none⟩).logLikelihood [0] =
      some ((([0] : List ℝ).map (fun x => Real.log
        ((GMM.mk 1 [1] [0] [1] ⟨none, none, none, none⟩).mixDensity x))).sum) ∧
    (GMM.mk 1 [1] [0] [1] ⟨none, none, none, none⟩).logLikelihoodMemberships
        ((GMM.mk 1 [1] [0] [1] ⟨none, none, none, none⟩).memberships [0]) =
      some ((([0] : List ℝ).map (fun x => Real.log
        ((GMM.mk 1 [1] [0] [1] ⟨none, none, none, none⟩).mixDensity x))).sum -
        (([0] : List ℝ).map (fun x => Real.log
        ((GMM.mk 1 [1] [0] [1] ⟨none, none, none, none⟩).sumPdf x))).sum)) := by
  have hhyp : ∀ x ∈ ([0] : List ℝ),
      (GMM.mk 1 [1] [0] [1] ⟨none, none, none, none⟩).sumPdf x ≠ 0 ∧
      (GMM.mk 1 [1] [0] [1] ⟨none, none, none, none⟩).mixDensity x ≠ 0 := by
    intro x hx
    have hx0 : x = 0 := by simpa using hx
    subst hx0
    have hpos : 0 < gaussPdf 0 1 0 := gaussPdf_pos 0 1 0 one_pos
    constructor
    · have : (GMM.mk 1 [1] [0] [1] ⟨none, none, none, none⟩).sumPdf 0 =
          gaussPdf 0 1 0 := by
        simp [GMM.sumPdf, GMM.pdfk, List.range_succ]
      rw [this]
      exact ne_of_gt hpos
    · have : (GMM.mk 1 [1] [0] [1] ⟨none, none, none, none⟩).mixDensity 0 =
          gaussPdf 0 1 0 := by
        simp [GMM.mixDensity, GMM.pdfk, List.range_succ]
      rw [this]
      exact ne_of_gt hpos
  exact ⟨hhyp, c3_loglik_memberships_formula _ [0] hhyp⟩

theorem gaussPdf_51_lt : gaussPdf 0 1 5 < gaussPdf 10 2 5 := by
  rw [gaussPdf, gaussPdf]
  have hpi := Real.pi_pos
  have hs2pi : 0 < Real.sqrt (2 * 1 * Real.pi) := Real.sqrt_pos.mpr (by nlinarith)
  have hs4pi : 0 < Real.sqrt (2 * 2 * Real.pi) := Real.sqrt_pos.mpr (by nlinarith)
  rw [div_lt_div_iff hs2pi hs4pi]
  have e1 : (-((5 : ℝ) - 0) ^ 2 / (2 * 1)) = -(25 / 2 : ℝ) := by norm_num
  have e2 : (-((5 : ℝ) - 10) ^ 2 / (2 * 2)) = -(25 / 4 : ℝ) := by norm_num
  rw [e1, e2]
  have hsplit : Real.sqrt (2 * 2 * Real.pi) =
      Real.sqrt 2 * Real.sqrt (2 * 1 * Real.pi) := by
    rw [show (2 : ℝ) * 2 * Real.pi = 2 * (2 * 1 * Real.pi) by ring,
      Real.sqrt_mul (by norm_num : (0 : ℝ) ≤ 2)]
  rw [hsplit, ← mul_assoc]
  apply mul_lt_mul_of_pos_right _ hs2pi
  have h4 : Real.sqrt 4 = 2 := by
    rw [show (4 : ℝ) = 2 ^ 2 by norm_num, Real.sqrt_sq (by norm_num : (0 : ℝ) ≤ 2)]
  have hsqrt2 : Real.sqrt 2 < 2 := by
    calc Real.sqrt 2 < Real.sqrt 4 := Real.sqrt_lt_sqrt (by norm_num) (by norm_num)
      _ = 2 := h4
  have h2exp : Real.sqrt 2 < Real.exp (25 / 4) := by
    have := Real.add_one_le_exp (25 / 4 : ℝ)
    linarith
  calc Real.exp (-(25 / 2)) * Real.sqrt 2
      < Real.exp (-(25 / 2)) * Real.exp (25 / 4) :=
        mul_lt_mul_of_pos_left h2exp (Real.exp_pos _)
    _ = Real.exp (-(25 / 4)) := by rw [← Real.exp_add]; norm_num

/-- C4 counterexample: with the model of the claim (nComponents = 3, uniform
weights, means [0, 10, 20] and vars [1, 2, 0.5]), the component densities at
x = 5 under the first two components are not equal (the second component's
variance 2 makes its density at distance 5 much larger), so
membership(5)[0] differs from membership(5)[1]: the claimed symmetry fails
for the stated variances. -/
theorem c4_membership_not_equal :
    ((GMM.mk 3 [1 / 3, 1 / 3, 1 / 3] [0, 10, 20] [1, 2, 1 / 2]
        ⟨none, none, none, none⟩).membership 5).getD 0 0 ≠
      ((GMM.mk 3 [1 / 3, 1 / 3, 1 / 3] [0, 10, 20] [1, 2, 1 / 2]
        ⟨none, none, none, none⟩).membership 5).getD 1 0 := by
  set gt : GMM := GMM.mk 3 [1 / 3, 1 / 3, 1 / 3] [0, 10, 20] [1, 2, 1 / 2]
    ⟨none, none, none, none⟩ with hgt
  have hk0 : (0 : ℕ) < gt.nComponents := by simp [hgt]
  have hk1 : (1 : ℕ) < gt.nComponents := by simp [hgt]
  have hp0 : gt.pdfk 0 5 = gaussPdf 0 1 5 := by simp [hgt, GMM.pdfk]
  have hp1 : gt.pdfk 1 5 = gaussPdf 10 2 5 := by simp [hgt, GMM.pdfk]
  have hS : gt.sumPdf 5 =
      gaussPdf 0 1 5 + gaussPdf 10 2 5 + gaussPdf 20 (1 / 2) 5 := by
    simp [GMM.sumPdf, List.range_succ, hgt, GMM.pdfk]
    ring
  have hSpos : 0 < gt.sumPdf 5 := by
    rw [hS]
    have h1 := gaussPdf_pos 0 1 5 one_pos
    have h2 := gaussPdf_pos 10 2 5 two_pos
    have h3 := gaussPdf_pos 20 (1 / 2) 5 (by norm_num)
    linarith
  have hSne : gt.sumPdf 5 ≠ 0 := ne_of_gt hSpos
  intro hcontra
  rw [membership_getD gt 5 hk0, membership_getD gt 5 hk1, hp0, hp1] at hcontra
  have heq : gaussPdf 0 1 5 = gaussPdf 10 2 5 := by
    field_simp at hcontra
    exact hcontra
  have := gaussPdf_51_lt
  linarith

/-- C4 amended: the fixed scenario of the repository's test constructs the
model with default variances, new GMM(3, undefined, [0, 10, 20]), i.e.
vars = [1, 1, 1] (not [1, 2, 0.5], which belongs to a different test's model).
With nComponents = 3, weights = [1/3, 1/3, 1/3], means = [0, 10, 20] and
vars = [1, 1, 1], the point 5 is equidistant from the first two equal-variance
components, so membership(5)[0] = membership(5)[1] exactly, and
membership(0)[0] > 0.99. -/
theorem c4_membership_fixed_scenario :
    ((GMM.mk 3 [1 / 3, 1 / 3, 1 / 3] [0, 10, 20] [1, 1, 1]
        ⟨none, none, none, none⟩).membership 5).getD 0 0 =
      ((GMM.mk 3 [1 / 3, 1 / 3, 1 / 3] [0, 10, 20] [1, 1, 1]
        ⟨none, none, none, none⟩).membership 5).getD 1 0 ∧
    99 / 100 < ((GMM.mk 3 [1 / 3, 1 / 3, 1 / 3] [0, 10, 20] [1, 1, 1]
        ⟨none, none, none, none⟩).membership 0).getD 0 0 := by
  set gd : GMM := GMM.mk 3 [1 / 3, 1 / 3, 1 / 3] [0, 10, 20] [1, 1, 1]
    ⟨none, none, none, none⟩ with hgd
  have hk0 : (0 : ℕ) < gd.nComponents := by simp [hgd]
  have hk1 : (1 : ℕ) < gd.nComponents := by simp [hgd]
  constructor
  · rw [membership_getD gd 5 hk0, membership_getD gd 5 hk1]
    have hp0 : gd.pdfk 0 5 = gaussPdf 0 1 5 := by simp [hgd, GMM.pdfk]
    have hp1 : gd.pdfk 1 5 = gaussPdf 10 1 5 := by simp [hgd, GMM.pdfk]
    rw [hp0, hp1]
    have : gaussPdf 0 1 5 = gaussPdf 10 1 5 := by
      rw [gaussPdf, gaussPdf]
      norm_num
    rw [this]
  · rw [membership_getD gd 0 hk0]
    have hp0 : gd.pdfk 0 0 = gaussPdf 0 1 0 := by simp [hgd, GMM.pdfk]
    have hS : gd.sumPdf 0 =
        gaussPdf 0 1 0 + gaussPdf 10 1 0 + gaussPdf 20 1 0 := by
      simp [GMM.sumPdf, List.range_succ, hgd, GMM.pdfk]
      ring
    have hupos : 0 < Real.sqrt (2 * 1 * Real.pi) :=
      Real.sqrt_pos.mpr (by nlinarith [Real.pi_pos])
    have hv0 : gaussPdf 0 1 0 = 1 / Real.sqrt (2 * 1 * Real.pi) := by
      rw [gaussPdf]
      norm_num
    have hv1 : gaussPdf 10 1 0 = Real.exp (-(50 : ℝ)) / Real.sqrt (2 * 1 * Real.pi) := by
      rw [gaussPdf]
      norm_num
    have hv2 : gaussPdf 20 1 0 = Real.exp (-(200 : ℝ)) / Real.sqrt (2 * 1 * Real.pi) := by
      rw [gaussPdf]
      norm_num
    have ha : Real.exp (-(50 : ℝ)) ≤ 1 / 676 := by
      rw [Real.exp_neg]
      have h25 : (26 : ℝ) ≤ Real.exp 25 := by
        have := Real.add_one_le_exp (25 : ℝ)
        linarith
      have h50 : (676 : ℝ) ≤ Real.exp 50 := by
        have hs : Real.exp 50 = Real.exp 25 * Real.exp 25 := by
          rw [← Real.exp_add]
          norm_num
        nlinarith [Real.exp_pos (25 : ℝ)]
      have := inv_le_inv_of_le (by norm_num : (0 : ℝ) < 676) h50
      calc (Real.exp 50)⁻¹ ≤ (676 : ℝ)⁻¹ := this
        _ = 1 / 676 := by norm_num
    have hb : Real.exp (-(200 : ℝ)) ≤ Real.exp (-(50 : ℝ)) :=
      Real.exp_le_exp.mpr (by norm_num)
    have hapos : 0 < Real.exp (-(50 : ℝ)) := Real.exp_pos _
    have hbpos : 0 < Real.exp (-(200 : ℝ)) := Real.exp_pos _
    rw [hp0, hS, hv0, hv1, hv2]
    have hu0 : Real.sqrt (2 * 1 * Real.pi) ≠ 0 := ne_of_gt hupos
    have hd : 1 / Real.sqrt (2 * 1 * Real.pi) +
        Real.exp (-(50 : ℝ)) / Real.sqrt (2 * 1 * Real.pi) +
        Real.exp (-(200 : ℝ)) / Real.sqrt (2 * 1 * Real.pi) =
        (1 + Real.exp (-(50 : ℝ)) + Real.exp (-(200 : ℝ))) /
          Real.sqrt (2 * 1 * Real.pi) := by
      ring
    rw [hd]
    have hdenpos : 0 < 1 + Real.exp (-(50 : ℝ)) + Real.exp (-(200 : ℝ)) := by
      linarith
    have hratio : (1 / Real.sqrt (2 * 1 * Real.pi)) /
        ((1 + Real.exp (-(50 : ℝ)) + Real.exp (-(200 : ℝ))) /
          Real.sqrt (2 * 1 * Real.pi)) =
        1 / (1 + Real.exp (-(50 : ℝ)) + Real.exp (-(200 : ℝ))) := by
      field_simp
    rw [hratio, lt_div_iff hdenpos]
    nlinarith

end GaussianMixture
